import Mathlib

/-!
Shallow embedding of the toons flag chase simulator (`src/main.cpp`).

Agents (toons) race on a grid toward a flag.  Each agent's worker loop is a
sequence of lock-protected critical sections: propose a step, validate and
commit it (with the Coyote's jump fallback), check the win condition,
YosemiteSam's freeze shot, and the RoadRunner's burst step.  We embed each
lock-held section as a pure function on an explicit `RaceState`, randomness
as explicit draw parameters, and real time as an integer timestamp supplied
to each section.  The interleaving of agent threads is the reflexive
transitive closure of a step relation whose atomic steps are exactly the
lock-held sections.
-/

namespace ToonsChase

/-- Grid coordinate `(row, col)`, mirroring `struct Pos`. -/
structure Pos where
  r : Int
  c : Int
deriving DecidableEq, Repr

/-- Static board data from `struct Board`: dimensions, wall cells
(`cell[r][c] == '#'` becomes membership in `walls`), the finish column and
the flag (goal) cell. -/
structure Board where
  R : Int
  C : Int
  walls : List Pos
  finishCol : Int
  flag : Pos
deriving DecidableEq, Repr

/-- `Board::inBounds`. -/
def Board.inBounds (b : Board) (r c : Int) : Bool :=
  decide (0 ≤ r) && decide (r < b.R) && decide (0 ≤ c) && decide (c < b.C)

/-- The static cell holds a wall (`cell[r][c] == '#'`). -/
def Board.isWall (b : Board) (p : Pos) : Bool :=
  b.walls.contains p

/-- Board construction (`Board::Board`): the finish column is the rightmost
column `C-1` and the flag sits at `(R/2, C-2)`. -/
def mkBoard (R C : Int) (walls : List Pos) : Board :=
  { R := R, C := C, walls := walls, finishCol := C - 1, flag := { r := R / 2, c := C - 2 } }

/-- Toon indices, mirroring `enum Toon`. -/
def ROADRUNNER : Nat := 0

/-- Toon index of the Coyote. -/
def COYOTE : Nat := 1

/-- Toon index of YosemiteSam. -/
def YOSEMITESAM : Nat := 2

/-- Toon display names (`TOON_NM`). -/
def TOON_NM : List String := ["RoadRunner", "Coyote", "YosemiteSam"]

/-- The shared mutable race state: per-toon positions, freeze-expiry
timestamps and step counters (fields of `Board` in the C++ code), plus the
atomics `totalSteps`, `gameOver`, `winner` and `sam_on_cd` from `main`.
Timestamps are integers; `winner = -1` means unset. -/
structure RaceState where
  nToons : Nat
  toonPos : Nat → Pos
  frozen_until : Nat → Int
  steps : Nat → Nat
  totalSteps : Nat
  gameOver : Bool
  winner : Int
  sam_on_cd : Bool

/-- `pick_step`: the uniform draw over the four cardinal directions and
"stay"; the draw index is explicit. -/
def pick_step (i : Fin 5) : Pos :=
  match i.val with
  | 0 => { r := -1, c := 0 }
  | 1 => { r := 1, c := 0 }
  | 2 => { r := 0, c := -1 }
  | 3 => { r := 0, c := 1 }
  | _ => { r := 0, c := 0 }

/-- One component of the direction toward the goal:
`(goal > cur) - (goal < cur)`. -/
def dirStep (cur goal : Int) : Int :=
  (if cur < goal then 1 else 0) - (if goal < cur then 1 else 0)

/-- The unit direction from `cur` toward `goal` (the `dir` local of the
worker loop and of the burst section). -/
def dirTo (cur goal : Pos) : Pos :=
  { r := dirStep cur.r goal.r, c := dirStep cur.c goal.c }

/-- The biased step proposal (worker loop, bias section): `biasRoll` is the
outcome of `chance(trng) < 0.70` and `axisCoin` the outcome of the fair
coin being `0` (row axis). -/
def proposeStep (b : Board) (cur : Pos) (biasRoll : Bool) (axisCoin : Bool)
    (pick : Fin 5) : Pos :=
  let dir := dirTo cur b.flag
  if biasRoll then
    if axisCoin && !(dir.r == 0) then { r := dir.r, c := 0 }
    else if !(dir.c == 0) then { r := 0, c := dir.c }
    else pick_step pick
  else pick_step pick

/-- The occupancy scan `occ` of the worker's move section: some other toon
currently sits at `p`. -/
def occ (s : RaceState) (t : Nat) (p : Pos) : Bool :=
  (List.range s.nToons).any fun k => !(k == t) && s.toonPos k == p

/-- The validation test of `try_move`: destination in bounds, strictly left
of the finish column, not a wall, not occupied by another toon. -/
def validDest (b : Board) (s : RaceState) (t : Nat) (dest : Pos) : Bool :=
  b.inBounds dest.r dest.c && decide (dest.c < b.finishCol) &&
    !(b.isWall dest) && !(occ s t dest)

/-- `try_move`: validate the destination; on success commit the position and
increment the toon's step counter, reporting `true`; on failure leave the
state unchanged and report `false`. -/
def try_move (b : Board) (s : RaceState) (t : Nat) (dest : Pos) :
    RaceState × Bool :=
  if validDest b s t dest then
    ({ s with toonPos := Function.update s.toonPos t dest,
              steps := Function.update s.steps t (s.steps t + 1) }, true)
  else (s, false)

/-- `try_move` followed by the `++totalSteps` that the worker performs on
every successful commit. -/
def tryCommit (b : Board) (s : RaceState) (t : Nat) (dest : Pos) :
    RaceState × Bool :=
  let m := try_move b s t dest
  if m.2 then ({ m.1 with totalSteps := m.1.totalSteps + 1 }, true) else m

/-- The `blocked` test of the worker's move section. -/
def blockedB (b : Board) (s : RaceState) (t : Nat) (nxt : Pos) : Bool :=
  !(b.inBounds nxt.r nxt.c && decide (nxt.c < b.finishCol)) ||
    b.isWall nxt || occ s t nxt

/-- The win condition: at the flag, or column at least `finishCol - 1`. -/
def winningPos (b : Board) (p : Pos) : Bool :=
  (p.r == b.flag.r && p.c == b.flag.c) || decide (b.finishCol - 1 ≤ p.c)

/-- The win check at the end of the move section: if the game is not over
and toon `t` stands on a winning cell, record `t` as winner and set the
game-over flag in the same critical section. -/
def winCheck (b : Board) (s : RaceState) (t : Nat) : RaceState :=
  if !s.gameOver then
    if winningPos b (s.toonPos t) then
      { s with winner := (t : Int), gameOver := true }
    else s
  else s

/-- The movement part of the worker's lock-held move section: Coyote jump
when the proposed destination is blocked and the jump roll succeeds,
otherwise the normal move.  Returns the new state and the `moved` flag. -/
def movePhase (b : Board) (s : RaceState) (t : Nat) (step : Pos)
    (jumpRoll : Bool) : RaceState × Bool :=
  let cur := s.toonPos t
  let nxt : Pos := { r := cur.r + step.r, c := cur.c + step.c }
  let hop : Pos := { r := nxt.r + step.r, c := nxt.c + step.c }
  let p1 :=
    if blockedB b s t nxt && (t == COYOTE) && jumpRoll then
      tryCommit b s t hop
    else (s, false)
  if !p1.2 then tryCommit b p1.1 t nxt else p1

/-- The whole lock-held move section of the worker: the movement phase
followed by the win check, all under one acquisition of the state lock. -/
def moveSection (b : Board) (s : RaceState) (t : Nat) (step : Pos)
    (jumpRoll : Bool) : RaceState × Bool :=
  let p2 := movePhase b s t step jumpRoll
  (winCheck b p2.1 t, p2.2)

/-- The target scan of YosemiteSam's shot: nearest (Manhattan) other toon
that is not currently frozen, ties broken by first-found scan order;
returns `(target, bestD)` with `target = -1` when no candidate exists. -/
def findTarget (s : RaceState) (t : Nat) (tNow : Int) : Int × Int :=
  (List.range s.nToons).foldl
    (fun acc k =>
      if k = t then acc
      else if tNow < s.frozen_until k then acc
      else
        let d : Int := |(s.toonPos k).r - (s.toonPos t).r| +
          |(s.toonPos k).c - (s.toonPos t).c|
        if d < acc.2 then ((k : Int), d) else acc)
    ((-1 : Int), (1000000000 : Int))

/-- YosemiteSam's shoot section: if not on cooldown and the shoot roll
succeeds, freeze the nearest unfrozen other toon (if any); the cooldown
flag is then set (the detached timer that later clears it is `cdExpire`).
Note that in the source the `sam_on_cd.store(true)` stands after, and
outside of, the `if(target != -1)` block. -/
def samSection (freeze_ms : Int) (s : RaceState) (t : Nat) (tNow : Int)
    (shootRoll : Bool) : RaceState :=
  if t == YOSEMITESAM && !s.gameOver then
    if !s.sam_on_cd && shootRoll then
      let target := (findTarget s t tNow).1
      let s1 :=
        if !(target == -1) then
          { s with frozen_until :=
              Function.update s.frozen_until target.toNat (tNow + freeze_ms) }
        else s
      { s1 with sam_on_cd := true }
    else s
  else s

/-- The detached cooldown timer firing: it only clears the cooldown flag. -/
def cdExpire (s : RaceState) : RaceState :=
  { s with sam_on_cd := false }

/-- The RoadRunner's burst section (its own lock acquisition): if the toon
moved this tick and the burst roll succeeds, take one extra step toward the
flag (row axis preferred; a uniform pick when already on the flag's cell
axis-wise), validated like a normal move and committed with the step
counters — but with no win check in this critical section. -/
def burstSection (b : Board) (s : RaceState) (t : Nat) (moved : Bool)
    (burstRoll : Bool) (pick : Fin 5) : RaceState :=
  if t == ROADRUNNER && moved && !s.gameOver then
    if burstRoll then
      let cur := s.toonPos t
      let dir := dirTo cur b.flag
      let step2 : Pos :=
        if !(|dir.r| + |dir.c| == 0) then
          { r := if !(dir.r == 0) then dir.r else 0,
            c := if dir.r == 0 then dir.c else 0 }
        else pick_step pick
      let nxt : Pos := { r := cur.r + step2.r, c := cur.c + step2.c }
      if b.inBounds nxt.r nxt.c && decide (nxt.c < b.finishCol) &&
          !(b.isWall nxt) && !(occ s t nxt) then
        { s with toonPos := Function.update s.toonPos t nxt,
                 steps := Function.update s.steps t (s.steps t + 1),
                 totalSteps := s.totalSteps + 1 }
      else s
    else s
  else s

/-- The random draws consumed by one iteration of the worker loop. -/
structure Draws where
  biasRoll : Bool
  axisCoin : Bool
  pick1 : Fin 5
  jumpRoll : Bool
  shootRoll : Bool
  burstRoll : Bool
  pick2 : Fin 5
deriving DecidableEq, Repr

/-- One full iteration of the worker loop body for toon `t` at time `tNow`:
freeze gate first (a frozen toon only sleeps), then the biased proposal,
the move section, YosemiteSam's shot and the RoadRunner burst. -/
def tick (b : Board) (freeze_ms : Int) (s : RaceState) (t : Nat) (tNow : Int)
    (d : Draws) : RaceState :=
  if tNow < s.frozen_until t then s
  else
    let step := proposeStep b (s.toonPos t) d.biasRoll d.axisCoin d.pick1
    let m := moveSection b s t step d.jumpRoll
    let s2 := samSection freeze_ms m.1 t tNow d.shootRoll
    burstSection b s2 t m.2 d.burstRoll d.pick2

/-- Atomic steps of the concurrent system: each constructor is one
lock-held critical section of some toon's worker (or the detached cooldown
timer firing).  The step proposal, loop guards and freeze gate read state
outside these sections, so the relation conservatively allows any step
vector and any draw outcomes. -/
inductive SStep (b : Board) (freeze_ms : Int) : RaceState → RaceState → Prop where
  | move (s : RaceState) (t : Nat) (step : Pos) (jr : Bool) (ht : t < s.nToons) :
      SStep b freeze_ms s (moveSection b s t step jr).1
  | shoot (s : RaceState) (t : Nat) (tNow : Int) (sr : Bool) (ht : t < s.nToons) :
      SStep b freeze_ms s (samSection freeze_ms s t tNow sr)
  | burst (s : RaceState) (t : Nat) (mv br : Bool) (pk : Fin 5) (ht : t < s.nToons) :
      SStep b freeze_ms s (burstSection b s t mv br pk)
  | cdReset (s : RaceState) : SStep b freeze_ms s (cdExpire s)

/-- Reachability along the interleaving of critical sections. -/
def Reachable (b : Board) (freeze_ms : Int) : RaceState → RaceState → Prop :=
  Relation.ReflTransGen (SStep b freeze_ms)

/-- No two toons occupy the same cell. -/
def distinctPos (s : RaceState) : Prop :=
  ∀ i, i < s.nToons → ∀ j, j < s.nToons → i ≠ j → s.toonPos i ≠ s.toonPos j

/-- Postcondition of the initial random placement loop in `main`: the `used`
board (with the flag pre-marked) makes the starting cells pairwise distinct
and distinct from the flag, and the rejection test excludes walls. -/
def initPlacement (b : Board) (s : RaceState) : Prop :=
  (∀ i, i < s.nToons → ∀ j, j < s.nToons → i ≠ j → s.toonPos i ≠ s.toonPos j) ∧
    (∀ i, i < s.nToons → s.toonPos i ≠ b.flag ∧ b.isWall (s.toonPos i) = false)

/-- The configuration values relevant to termination, from `struct Options`. -/
structure Options where
  rows : Int
  cols : Int
  toons : Int
  maxSteps : Int
deriving DecidableEq, Repr

/-- The clamping performed at the end of `parseArgs`. -/
def clampOptions (o : Options) : Options :=
  { o with toons := max 1 (min o.toons 3), rows := max 5 o.rows,
           cols := max 20 o.cols, maxSteps := max 100 o.maxSteps }

/-- The worker loop guard `while(!gameOver.load() && !gStop.load())`. -/
def workerLoopContinues (gameOver gStop : Bool) : Bool :=
  !gameOver && !gStop

/-- The supervisor wait-loop guard in `main`, identical to the workers'. -/
def supervisorWaits (gameOver gStop : Bool) : Bool :=
  !gameOver && !gStop

/-- The terminal report of `main` after joining the workers: a summary with
the winner's name is printed only when `winner >= 0`; otherwise nothing is
printed at all. -/
def finalSummary (nToons : Nat) (steps : Nat → Nat) (winner : Int) :
    List String :=
  if 0 ≤ winner then
    "=== Final Summary ===" ::
      ((List.range nToons).map fun t =>
        TOON_NM.getD t "" ++ " steps: " ++ toString (steps t)) ++
      ["Winner: " ++ TOON_NM.getD winner.toNat ""]
  else []

/-- Modelled from the spec: the biased proposal rule exactly as the spec
words it — with the bias probability choose an axis with even odds and
step along it toward the goal, falling back to the other axis whenever the
chosen axis is already aligned; the uniform five-way pick only on the
non-bias branch or when aligned on both axes. -/
def specProposeStep (b : Board) (cur : Pos) (biasRoll : Bool) (axisCoin : Bool)
    (pick : Fin 5) : Pos :=
  let dir := dirTo cur b.flag
  if biasRoll then
    if dir.r == 0 && dir.c == 0 then pick_step pick
    else if axisCoin then
      if !(dir.r == 0) then { r := dir.r, c := 0 } else { r := 0, c := dir.c }
    else
      if !(dir.c == 0) then { r := 0, c := dir.c } else { r := dir.r, c := 0 }
  else pick_step pick

/-- Modelled from the spec, amended: as `specProposeStep`, except that when
the coin picks the column axis and the column is already aligned, the step
falls back to the uniform five-way pick instead of the row axis. -/
def specProposeStepAmended (b : Board) (cur : Pos) (biasRoll : Bool)
    (axisCoin : Bool) (pick : Fin 5) : Pos :=
  let dir := dirTo cur b.flag
  if !biasRoll then pick_step pick
  else if axisCoin then
    if !(dir.r == 0) then { r := dir.r, c := 0 }
    else if !(dir.c == 0) then { r := 0, c := dir.c }
    else pick_step pick
  else
    if !(dir.c == 0) then { r := 0, c := dir.c }
    else pick_step pick

/-- A small example board built like the program does: 5 rows, 20 columns,
no walls; finish column 19, flag at `(2, 18)`. -/
def bEx : Board := mkBoard 5 20 []

/-- Example board with a single wall at `(2, 3)`. -/
def bWallEx : Board := mkBoard 5 20 [{ r := 2, c := 3 }]

/-- Example state builder: positions given by a list (padded with `(0,0)`),
all other fields at their start-of-run values. -/
def exState (ps : List Pos) : RaceState :=
  { nToons := ps.length
    toonPos := fun k => ps.getD k { r := 0, c := 0 }
    frozen_until := fun _ => 0
    steps := fun _ => 0
    totalSteps := 0
    gameOver := false
    winner := -1
    sam_on_cd := false }

/-- Three-toon example state in which both toons other than YosemiteSam
(index 2) are frozen until time 100. -/
def sC3state : RaceState :=
  { exState [{ r := 1, c := 1 }, { r := 1, c := 3 }, { r := 3, c := 3 }] with
    frozen_until := fun k => if k = 2 then 0 else 100 }

/-! ## Frame lemmas

Each critical section touches only the fields the source code writes; the
remaining fields are preserved.  These lemmas drive all invariant proofs. -/

@[simp] lemma try_move_fst_nToons (b : Board) (s : RaceState) (t : Nat) (d : Pos) :
    (try_move b s t d).1.nToons = s.nToons := by
  simp [try_move, apply_ite (fun p : RaceState × Bool => p.1.nToons)]

@[simp] lemma try_move_fst_frozen (b : Board) (s : RaceState) (t : Nat) (d : Pos) :
    (try_move b s t d).1.frozen_until = s.frozen_until := by
  simp [try_move, apply_ite (fun p : RaceState × Bool => p.1.frozen_until)]

@[simp] lemma try_move_fst_totalSteps (b : Board) (s : RaceState) (t : Nat) (d : Pos) :
    (try_move b s t d).1.totalSteps = s.totalSteps := by
  simp [try_move, apply_ite (fun p : RaceState × Bool => p.1.totalSteps)]

@[simp] lemma try_move_fst_gameOver (b : Board) (s : RaceState) (t : Nat) (d : Pos) :
    (try_move b s t d).1.gameOver = s.gameOver := by
  simp [try_move, apply_ite (fun p : RaceState × Bool => p.1.gameOver)]

@[simp] lemma try_move_fst_winner (b : Board) (s : RaceState) (t : Nat) (d : Pos) :
    (try_move b s t d).1.winner = s.winner := by
  simp [try_move, apply_ite (fun p : RaceState × Bool => p.1.winner)]

@[simp] lemma try_move_fst_cd (b : Board) (s : RaceState) (t : Nat) (d : Pos) :
    (try_move b s t d).1.sam_on_cd = s.sam_on_cd := by
  simp [try_move, apply_ite (fun p : RaceState × Bool => p.1.sam_on_cd)]

@[simp] lemma tryCommit_fst_nToons (b : Board) (s : RaceState) (t : Nat) (d : Pos) :
    (tryCommit b s t d).1.nToons = s.nToons := by
  simp [tryCommit, apply_ite (fun p : RaceState × Bool => p.1.nToons)]

@[simp] lemma tryCommit_fst_frozen (b : Board) (s : RaceState) (t : Nat) (d : Pos) :
    (tryCommit b s t d).1.frozen_until = s.frozen_until := by
  simp [tryCommit, apply_ite (fun p : RaceState × Bool => p.1.frozen_until)]

@[simp] lemma tryCommit_fst_gameOver (b : Board) (s : RaceState) (t : Nat) (d : Pos) :
    (tryCommit b s t d).1.gameOver = s.gameOver := by
  simp [tryCommit, apply_ite (fun p : RaceState × Bool => p.1.gameOver)]

@[simp] lemma tryCommit_fst_winner (b : Board) (s : RaceState) (t : Nat) (d : Pos) :
    (tryCommit b s t d).1.winner = s.winner := by
  simp [tryCommit, apply_ite (fun p : RaceState × Bool => p.1.winner)]

@[simp] lemma tryCommit_fst_cd (b : Board) (s : RaceState) (t : Nat) (d : Pos) :
    (tryCommit b s t d).1.sam_on_cd = s.sam_on_cd := by
  simp [tryCommit, apply_ite (fun p : RaceState × Bool => p.1.sam_on_cd)]

@[simp] lemma tryCommit_fst_toonPos (b : Board) (s : RaceState) (t : Nat) (d : Pos) :
    (tryCommit b s t d).1.toonPos = (try_move b s t d).1.toonPos := by
  simp [tryCommit, apply_ite (fun p : RaceState × Bool => p.1.toonPos)]

@[simp] lemma tryCommit_fst_steps (b : Board) (s : RaceState) (t : Nat) (d : Pos) :
    (tryCommit b s t d).1.steps = (try_move b s t d).1.steps := by
  simp [tryCommit, apply_ite (fun p : RaceState × Bool => p.1.steps)]

@[simp] lemma winCheck_toonPos (b : Board) (s : RaceState) (t : Nat) :
    (winCheck b s t).toonPos = s.toonPos := by
  simp [winCheck, apply_ite RaceState.toonPos]

@[simp] lemma winCheck_steps (b : Board) (s : RaceState) (t : Nat) :
    (winCheck b s t).steps = s.steps := by
  simp [winCheck, apply_ite RaceState.steps]

@[simp] lemma winCheck_frozen (b : Board) (s : RaceState) (t : Nat) :
    (winCheck b s t).frozen_until = s.frozen_until := by
  simp [winCheck, apply_ite RaceState.frozen_until]

@[simp] lemma winCheck_totalSteps (b : Board) (s : RaceState) (t : Nat) :
    (winCheck b s t).totalSteps = s.totalSteps := by
  simp [winCheck, apply_ite RaceState.totalSteps]

@[simp] lemma winCheck_nToons (b : Board) (s : RaceState) (t : Nat) :
    (winCheck b s t).nToons = s.nToons := by
  simp [winCheck, apply_ite RaceState.nToons]

@[simp] lemma winCheck_cd (b : Board) (s : RaceState) (t : Nat) :
    (winCheck b s t).sam_on_cd = s.sam_on_cd := by
  simp [winCheck, apply_ite RaceState.sam_on_cd]

lemma winCheck_of_gameOver (b : Board) (s : RaceState) (t : Nat)
    (h : s.gameOver = true) : winCheck b s t = s := by
  unfold winCheck; rw [h]; rfl

lemma winCheck_gameOver_iff (b : Board) (s : RaceState) (t : Nat) :
    (winCheck b s t).gameOver = true ↔
      s.gameOver = true ∨ winningPos b (s.toonPos t) = true := by
  unfold winCheck
  rcases hg : s.gameOver with _ | _
  · rcases hw : winningPos b (s.toonPos t) with _ | _ <;> simp [hg, hw]
  · simp [hg]

lemma winCheck_winner_of_set (b : Board) (s : RaceState) (t : Nat)
    (hg : s.gameOver = false) (hw : (winCheck b s t).gameOver = true) :
    (winCheck b s t).winner = (t : Int) ∧ winningPos b (s.toonPos t) = true := by
  unfold winCheck at hw ⊢
  rcases hp : winningPos b (s.toonPos t) with _ | _
  · rw [hg] at hw; simp [hp] at hw
    exact absurd hw (by simp [hg])
  · simp [hg, hp]

lemma winCheck_winner_of_not_set (b : Board) (s : RaceState) (t : Nat)
    (hw : (winCheck b s t).gameOver = false) :
    winCheck b s t = s := by
  unfold winCheck at hw ⊢
  rcases hg : s.gameOver with _ | _
  · rcases hp : winningPos b (s.toonPos t) with _ | _
    · simp [hg, hp]
    · rw [hg] at hw; simp [hp] at hw
  · rfl

@[simp] lemma movePhase_fst_nToons (b : Board) (s : RaceState) (t : Nat)
    (step : Pos) (jr : Bool) : (movePhase b s t step jr).1.nToons = s.nToons := by
  simp [movePhase, apply_ite (fun p : RaceState × Bool => p.1.nToons)]

@[simp] lemma movePhase_fst_frozen (b : Board) (s : RaceState) (t : Nat)
    (step : Pos) (jr : Bool) :
    (movePhase b s t step jr).1.frozen_until = s.frozen_until := by
  simp [movePhase, apply_ite (fun p : RaceState × Bool => p.1.frozen_until)]

@[simp] lemma movePhase_fst_gameOver (b : Board) (s : RaceState) (t : Nat)
    (step : Pos) (jr : Bool) :
    (movePhase b s t step jr).1.gameOver = s.gameOver := by
  simp [movePhase, apply_ite (fun p : RaceState × Bool => p.1.gameOver)]

@[simp] lemma movePhase_fst_winner (b : Board) (s : RaceState) (t : Nat)
    (step : Pos) (jr : Bool) :
    (movePhase b s t step jr).1.winner = s.winner := by
  simp [movePhase, apply_ite (fun p : RaceState × Bool => p.1.winner)]

@[simp] lemma movePhase_fst_cd (b : Board) (s : RaceState) (t : Nat)
    (step : Pos) (jr : Bool) :
    (movePhase b s t step jr).1.sam_on_cd = s.sam_on_cd := by
  simp [movePhase, apply_ite (fun p : RaceState × Bool => p.1.sam_on_cd)]

@[simp] lemma samSection_toonPos (fz : Int) (s : RaceState) (t : Nat)
    (tNow : Int) (sr : Bool) :
    (samSection fz s t tNow sr).toonPos = s.toonPos := by
  simp [samSection, apply_ite RaceState.toonPos]

@[simp] lemma samSection_steps (fz : Int) (s : RaceState) (t : Nat)
    (tNow : Int) (sr : Bool) :
    (samSection fz s t tNow sr).steps = s.steps := by
  simp [samSection, apply_ite RaceState.steps]

@[simp] lemma samSection_totalSteps (fz : Int) (s : RaceState) (t : Nat)
    (tNow : Int) (sr : Bool) :
    (samSection fz s t tNow sr).totalSteps = s.totalSteps := by
  simp [samSection, apply_ite RaceState.totalSteps]

@[simp] lemma samSection_gameOver (fz : Int) (s : RaceState) (t : Nat)
    (tNow : Int) (sr : Bool) :
    (samSection fz s t tNow sr).gameOver = s.gameOver := by
  simp [samSection, apply_ite RaceState.gameOver]

@[simp] lemma samSection_winner (fz : Int) (s : RaceState) (t : Nat)
    (tNow : Int) (sr : Bool) :
    (samSection fz s t tNow sr).winner = s.winner := by
  simp [samSection, apply_ite RaceState.winner]

@[simp] lemma samSection_nToons (fz : Int) (s : RaceState) (t : Nat)
    (tNow : Int) (sr : Bool) :
    (samSection fz s t tNow sr).nToons = s.nToons := by
  simp [samSection, apply_ite RaceState.nToons]

@[simp] lemma burstSection_gameOver (b : Board) (s : RaceState) (t : Nat)
    (mv br : Bool) (pk : Fin 5) :
    (burstSection b s t mv br pk).gameOver = s.gameOver := by
  simp [burstSection, apply_ite RaceState.gameOver]

@[simp] lemma burstSection_winner (b : Board) (s : RaceState) (t : Nat)
    (mv br : Bool) (pk : Fin 5) :
    (burstSection b s t mv br pk).winner = s.winner := by
  simp [burstSection, apply_ite RaceState.winner]

@[simp] lemma burstSection_frozen (b : Board) (s : RaceState) (t : Nat)
    (mv br : Bool) (pk : Fin 5) :
    (burstSection b s t mv br pk).frozen_until = s.frozen_until := by
  simp [burstSection, apply_ite RaceState.frozen_until]

@[simp] lemma burstSection_cd (b : Board) (s : RaceState) (t : Nat)
    (mv br : Bool) (pk : Fin 5) :
    (burstSection b s t mv br pk).sam_on_cd = s.sam_on_cd := by
  simp [burstSection, apply_ite RaceState.sam_on_cd]

@[simp] lemma burstSection_nToons (b : Board) (s : RaceState) (t : Nat)
    (mv br : Bool) (pk : Fin 5) :
    (burstSection b s t mv br pk).nToons = s.nToons := by
  simp [burstSection, apply_ite RaceState.nToons]

@[simp] lemma cdExpire_toonPos (s : RaceState) : (cdExpire s).toonPos = s.toonPos := rfl

@[simp] lemma cdExpire_gameOver (s : RaceState) : (cdExpire s).gameOver = s.gameOver := rfl

@[simp] lemma cdExpire_winner (s : RaceState) : (cdExpire s).winner = s.winner := rfl

@[simp] lemma cdExpire_nToons (s : RaceState) : (cdExpire s).nToons = s.nToons := rfl

@[simp] lemma moveSection_fst (b : Board) (s : RaceState) (t : Nat)
    (step : Pos) (jr : Bool) :
    (moveSection b s t step jr).1 = winCheck b (movePhase b s t step jr).1 t := rfl

@[simp] lemma moveSection_snd (b : Board) (s : RaceState) (t : Nat)
    (step : Pos) (jr : Bool) :
    (moveSection b s t step jr).2 = (movePhase b s t step jr).2 := rfl

/-! ## Occupancy, validity and distinctness -/

instance (s : RaceState) : Decidable (distinctPos s) := by
  unfold distinctPos; infer_instance

instance (b : Board) (s : RaceState) : Decidable (initPlacement b s) := by
  unfold initPlacement; infer_instance

lemma occ_eq_true_iff (s : RaceState) (t : Nat) (p : Pos) :
    occ s t p = true ↔ ∃ k, k < s.nToons ∧ k ≠ t ∧ s.toonPos k = p := by
  simp [occ, List.any_eq_true, List.mem_range, and_assoc]

lemma occ_eq_false_iff (s : RaceState) (t : Nat) (p : Pos) :
    occ s t p = false ↔ ∀ k, k < s.nToons → k ≠ t → s.toonPos k ≠ p := by
  rw [← Bool.not_eq_true, occ_eq_true_iff]
  push_neg
  rfl

lemma validDest_eq_true_iff (b : Board) (s : RaceState) (t : Nat) (d : Pos) :
    validDest b s t d = true ↔
      b.inBounds d.r d.c = true ∧ d.c < b.finishCol ∧ b.isWall d = false ∧
        ∀ k, k < s.nToons → k ≠ t → s.toonPos k ≠ d := by
  simp [validDest, occ_eq_false_iff, Bool.and_eq_true, and_assoc]

lemma bool_blocked_aux (A B C D : Bool) :
    ((!(A && B)) || C || D) = !(A && B && !C && !D) := by
  cases A <;> cases B <;> cases C <;> cases D <;> rfl

lemma blockedB_eq_not_validDest (b : Board) (s : RaceState) (t : Nat) (d : Pos) :
    blockedB b s t d = !validDest b s t d := by
  rw [blockedB, validDest]
  exact bool_blocked_aux _ _ _ _

lemma distinctPos_of_fields (s s' : RaceState) (hn : s'.nToons = s.nToons)
    (hp : s'.toonPos = s.toonPos) (h : distinctPos s) : distinctPos s' := by
  intro i hi j hj hij
  rw [hp]
  rw [hn] at hi hj
  exact h i hi j hj hij

lemma distinctPos_update (s : RaceState) (t : Nat) (dest : Pos)
    (hocc : ∀ k, k < s.nToons → k ≠ t → s.toonPos k ≠ dest)
    (hd : distinctPos s) :
    ∀ i, i < s.nToons → ∀ j, j < s.nToons → i ≠ j →
      Function.update s.toonPos t dest i ≠ Function.update s.toonPos t dest j := by
  intro i hi j hj hij
  rcases eq_or_ne i t with rfl | hit
  · rw [Function.update_same, Function.update_noteq (Ne.symm hij)]
    exact fun hEq => hocc j hj (Ne.symm hij) hEq.symm
  · rw [Function.update_noteq hit]
    rcases eq_or_ne j t with rfl | hjt
    · rw [Function.update_same]
      exact hocc i hi hit
    · rw [Function.update_noteq hjt]
      exact hd i hi j hj hij

lemma try_move_distinct (b : Board) (s : RaceState) (t : Nat) (d : Pos)
    (hd : distinctPos s) : distinctPos (try_move b s t d).1 := by
  unfold try_move
  split
  · rename_i hv
    have hocc := ((validDest_eq_true_iff b s t d).mp hv).2.2.2
    intro i hi j hj hij
    exact distinctPos_update s t d hocc hd i hi j hj hij
  · exact hd

lemma tryCommit_distinct (b : Board) (s : RaceState) (t : Nat) (d : Pos)
    (hd : distinctPos s) : distinctPos (tryCommit b s t d).1 :=
  distinctPos_of_fields _ _ (by simp) (by simp) (try_move_distinct b s t d hd)

lemma movePhase_distinct (b : Board) (s : RaceState) (t : Nat) (step : Pos)
    (jr : Bool) (hd : distinctPos s) :
    distinctPos (movePhase b s t step jr).1 := by
  simp only [movePhase]
  split
  · split
    · exact tryCommit_distinct _ _ _ _ (tryCommit_distinct _ _ _ _ hd)
    · exact tryCommit_distinct _ _ _ _ hd
  · split
    · exact tryCommit_distinct _ _ _ _ hd
    · exact hd

lemma distinct_commit_ite (s : RaceState) (t : Nat) (nxt : Pos) (A : Bool)
    (hd : distinctPos s) :
    distinctPos (if (A && !(occ s t nxt)) = true
      then { s with toonPos := Function.update s.toonPos t nxt,
                    steps := Function.update s.steps t (s.steps t + 1),
                    totalSteps := s.totalSteps + 1 }
      else s) := by
  split
  · rename_i hv
    have hocc : occ s t nxt = false := by
      rcases ho : occ s t nxt with _ | _
      · rfl
      · rw [ho] at hv; simp at hv
    intro i hi j hj hij
    exact distinctPos_update s t nxt ((occ_eq_false_iff s t nxt).mp hocc) hd i hi j hj hij
  · exact hd

lemma burstSection_distinct (b : Board) (s : RaceState) (t : Nat)
    (mv br : Bool) (pk : Fin 5) (hd : distinctPos s) :
    distinctPos (burstSection b s t mv br pk) := by
  simp only [burstSection]
  split
  · split
    · exact distinct_commit_ite s t _ _ hd
    · exact hd
  · exact hd

lemma sstep_distinct {b : Board} {fz : Int} {s s' : RaceState}
    (h : SStep b fz s s') (hd : distinctPos s) : distinctPos s' := by
  cases h with
  | move t step jr ht =>
      exact distinctPos_of_fields _ _ (by simp) (by simp)
        (movePhase_distinct b s t step jr hd)
  | shoot t tNow sr ht =>
      exact distinctPos_of_fields _ _ (by simp) (by simp) hd
  | burst t mv br pk ht =>
      exact burstSection_distinct b s t mv br pk hd
  | cdReset =>
      exact distinctPos_of_fields _ _ (by simp) (by simp) hd

/-! ## Game-over monotonicity and winner election -/

lemma sstep_gameOver_winner {b : Board} {fz : Int} {s s' : RaceState}
    (h : SStep b fz s s') (hgo : s.gameOver = true) :
    s'.gameOver = true ∧ s'.winner = s.winner := by
  cases h with
  | move t step jr ht =>
      have hg : (movePhase b s t step jr).1.gameOver = true := by simp [hgo]
      rw [moveSection_fst, winCheck_of_gameOver _ _ _ hg]
      simp [hgo]
  | shoot t tNow sr ht => simp [hgo]
  | burst t mv br pk ht => simp [hgo]
  | cdReset => simp [hgo]

lemma reachable_gameOver_winner {b : Board} {fz : Int} {s s' : RaceState}
    (h : Reachable b fz s s') (hgo : s.gameOver = true) :
    s'.gameOver = true ∧ s'.winner = s.winner := by
  induction h with
  | refl => exact ⟨hgo, rfl⟩
  | tail hab hbc ih =>
      obtain ⟨h1, h2⟩ := ih
      obtain ⟨h3, h4⟩ := sstep_gameOver_winner hbc h1
      exact ⟨h3, h4.trans h2⟩

lemma moveSection_sets_winner {b : Board} {s : RaceState} {t : Nat}
    {step : Pos} {jr : Bool} (hgo : s.gameOver = false)
    (hset : (moveSection b s t step jr).1.gameOver = true) :
    (moveSection b s t step jr).1.winner = (t : Int) ∧
      winningPos b ((moveSection b s t step jr).1.toonPos t) = true := by
  rw [moveSection_fst] at hset ⊢
  have hg2 : (movePhase b s t step jr).1.gameOver = false := by simp [hgo]
  obtain ⟨hw, hwin⟩ := winCheck_winner_of_set b _ t hg2 hset
  exact ⟨hw, by rw [winCheck_toonPos]; exact hwin⟩

lemma sstep_winner_of_not_over {b : Board} {fz : Int} {s s' : RaceState}
    (h : SStep b fz s s') (hgo : s'.gameOver = false) :
    s'.winner = s.winner := by
  cases h with
  | move t step jr ht =>
      rw [moveSection_fst] at hgo ⊢
      rw [winCheck_winner_of_not_set b _ t hgo]
      simp
  | shoot t tNow sr ht => simp
  | burst t mv br pk ht => simp
  | cdReset => rfl

lemma sstep_setter_inversion {b : Board} {fz : Int} {s m : RaceState}
    (h : SStep b fz s m) (hgo : s.gameOver = false) (hm : m.gameOver = true) :
    ∃ t step jr, t < s.nToons ∧ m = (moveSection b s t step jr).1 ∧
      m.winner = (t : Int) ∧ winningPos b (m.toonPos t) = true := by
  cases h with
  | move t step jr ht =>
      obtain ⟨h1, h2⟩ := moveSection_sets_winner hgo hm
      exact ⟨t, step, jr, ht, rfl, h1, h2⟩
  | shoot t tNow sr ht =>
      rw [samSection_gameOver, hgo] at hm
      exact absurd hm (by simp)
  | burst t mv br pk ht =>
      rw [burstSection_gameOver, hgo] at hm
      exact absurd hm (by simp)
  | cdReset =>
      rw [cdExpire_gameOver, hgo] at hm
      exact absurd hm (by simp)

/-- C1: along every interleaving of lock-held critical sections, the
game-over flag is monotone and the winner, once the flag is set, never
changes (so the winner is recorded at most once and a second toon reaching
the win condition in a later section cannot overwrite it); moreover any
single section that leaves the winner record is winner-neutral unless it
sets the flag, and a section that flips the flag from clear to set is the
move section of some toon `t`, which records exactly `t` — a toon whose
committed position satisfies the win condition — in the same check-and-set. -/
theorem winner_elected_once (b : Board) (fz : Int) (s s' : RaceState)
    (h : Reachable b fz s s') :
    (s.gameOver = true → s'.gameOver = true ∧ s'.winner = s.winner) ∧
    (∀ m, SStep b fz s' m → m.gameOver = false → m.winner = s'.winner) ∧
    (∀ m, SStep b fz s' m → s'.gameOver = false → m.gameOver = true →
      ∃ t step jr, t < s'.nToons ∧ m = (moveSection b s' t step jr).1 ∧
        m.winner = (t : Int) ∧ winningPos b (m.toonPos t) = true) := by
  refine ⟨fun hgo => reachable_gameOver_winner h hgo, ?_, ?_⟩
  · exact fun m hm hmo => sstep_winner_of_not_over hm hmo
  · exact fun m hm hgo hmo => sstep_setter_inversion hm hgo hmo

/-- C1 witness: a concrete finished state (game over, toon 0 recorded) is
stable: reachability (here the trivial trace) keeps the flag set and the
winner unchanged, and from a concrete running state the move section that
pushes toon 0 onto the flag elects toon 0. -/
theorem winner_elected_once_witness :
    ((exState [{ r := 1, c := 1 }]).gameOver = true →
      (exState [{ r := 1, c := 1 }]).gameOver = true ∧
        (exState [{ r := 1, c := 1 }]).winner = (exState [{ r := 1, c := 1 }]).winner) ∧
    (∀ m, SStep bEx 1000 (exState [{ r := 1, c := 1 }]) m → m.gameOver = false →
      m.winner = (exState [{ r := 1, c := 1 }]).winner) ∧
    (∀ m, SStep bEx 1000 (exState [{ r := 1, c := 1 }]) m →
      (exState [{ r := 1, c := 1 }]).gameOver = false → m.gameOver = true →
      ∃ t step jr, t < (exState [{ r := 1, c := 1 }]).nToons ∧
        m = (moveSection bEx (exState [{ r := 1, c := 1 }]) t step jr).1 ∧
        m.winner = (t : Int) ∧ winningPos bEx (m.toonPos t) = true) :=
  winner_elected_once bEx 1000 (exState [{ r := 1, c := 1 }])
    (exState [{ r := 1, c := 1 }]) Relation.ReflTransGen.refl

/-- C7: no two toons ever occupy the same cell — the initial placement
puts them on pairwise distinct cells, and every committed normal move,
Coyote jump and RoadRunner burst validates the destination against every
other toon's position inside the same critical section (the shot and the
cooldown timer do not move anyone), so distinctness is preserved along
every reachable state. -/
theorem no_two_toons_share_cell (b : Board) (fz : Int) (s s' : RaceState)
    (hinit : initPlacement b s) (h : Reachable b fz s s') : distinctPos s' := by
  have hd : distinctPos s := hinit.1
  induction h with
  | refl => exact hd
  | tail hab hbc ih => exact sstep_distinct hbc ih

/-- C7 witness: from a concrete two-toon placement, the state after toon 0's
move section still has the toons on distinct cells. -/
theorem no_two_toons_share_cell_witness :
    distinctPos (moveSection bEx
      (exState [{ r := 1, c := 1 }, { r := 1, c := 2 }]) 0
      { r := 0, c := 1 } false).1 :=
  no_two_toons_share_cell bEx 1000
    (exState [{ r := 1, c := 1 }, { r := 1, c := 2 }]) _
    (by decide)
    (Relation.ReflTransGen.single
      (SStep.move (exState [{ r := 1, c := 1 }, { r := 1, c := 2 }]) 0
        { r := 0, c := 1 } false (by decide)))

/-! ## Commit behavior of `try_move` -/

lemma try_move_of_valid {b : Board} {s : RaceState} {t : Nat} {d : Pos}
    (hv : validDest b s t d = true) :
    try_move b s t d =
      ({ s with toonPos := Function.update s.toonPos t d,
                steps := Function.update s.steps t (s.steps t + 1) }, true) := by
  unfold try_move
  rw [if_pos hv]

lemma try_move_of_invalid {b : Board} {s : RaceState} {t : Nat} {d : Pos}
    (hv : validDest b s t d = false) :
    try_move b s t d = (s, false) := by
  unfold try_move
  rw [if_neg (by simp [hv])]

@[simp] lemma try_move_snd (b : Board) (s : RaceState) (t : Nat) (d : Pos) :
    (try_move b s t d).2 = validDest b s t d := by
  unfold try_move
  split
  · rename_i h; exact h.symm
  · rename_i h; exact (Bool.eq_false_iff.mpr h).symm

@[simp] lemma tryCommit_snd (b : Board) (s : RaceState) (t : Nat) (d : Pos) :
    (tryCommit b s t d).2 = validDest b s t d := by
  rcases hv : validDest b s t d with _ | _ <;>
    simp [tryCommit, hv]

lemma tryCommit_totalSteps_of_valid {b : Board} {s : RaceState} {t : Nat}
    {d : Pos} (hv : validDest b s t d = true) :
    (tryCommit b s t d).1.totalSteps = s.totalSteps + 1 := by
  simp [tryCommit, hv]

/-- C5: `try_move` validates the destination as: in bounds, column strictly
less than the finish boundary column, not a wall, and not occupied by any
other toon.  When all four hold, the move commits: the toon's position
becomes the destination and its step count grows by exactly 1, while every
other toon's position, step count and freeze timestamp, and the global
flags, are untouched.  When any check fails, the state is returned
entirely unchanged with a failure flag. -/
theorem apply_step_validates_and_commits (b : Board) (s : RaceState) (t : Nat)
    (dest : Pos) :
    ((b.inBounds dest.r dest.c = true ∧ dest.c < b.finishCol ∧
        b.isWall dest = false ∧
        (∀ k, k < s.nToons → k ≠ t → s.toonPos k ≠ dest)) →
      (try_move b s t dest).2 = true ∧
      (try_move b s t dest).1.toonPos t = dest ∧
      (try_move b s t dest).1.steps t = s.steps t + 1 ∧
      (∀ k, k ≠ t → (try_move b s t dest).1.toonPos k = s.toonPos k ∧
        (try_move b s t dest).1.steps k = s.steps k) ∧
      (try_move b s t dest).1.frozen_until = s.frozen_until ∧
      (try_move b s t dest).1.gameOver = s.gameOver ∧
      (try_move b s t dest).1.winner = s.winner ∧
      (try_move b s t dest).1.totalSteps = s.totalSteps) ∧
    (¬(b.inBounds dest.r dest.c = true ∧ dest.c < b.finishCol ∧
        b.isWall dest = false ∧
        (∀ k, k < s.nToons → k ≠ t → s.toonPos k ≠ dest)) →
      try_move b s t dest = (s, false)) := by
  constructor
  · intro hv
    have hb : validDest b s t dest = true := (validDest_eq_true_iff b s t dest).mpr hv
    rw [try_move_of_valid hb]
    refine ⟨rfl, by simp, by simp, ?_, rfl, rfl, rfl, rfl⟩
    intro k hk
    constructor
    · simp [Function.update_noteq hk]
    · simp [Function.update_noteq hk]
  · intro hv
    have hb : validDest b s t dest = false := by
      rcases hvb : validDest b s t dest with _ | _
      · rfl
      · exact absurd ((validDest_eq_true_iff b s t dest).mp hvb) hv
    exact try_move_of_invalid hb

/-- C5 witness: on a concrete two-toon state, a move of toon 0 to the free
in-bounds cell `(1,2)` commits with the step counter bumped, and a move
onto toon 1's cell `(3,3)` is rejected without any state change. -/
theorem apply_step_validates_and_commits_witness :
    ((try_move bEx (exState [{ r := 1, c := 1 }, { r := 3, c := 3 }]) 0
        { r := 1, c := 2 }).2 = true ∧
      (try_move bEx (exState [{ r := 1, c := 1 }, { r := 3, c := 3 }]) 0
        { r := 1, c := 2 }).1.toonPos 0 = { r := 1, c := 2 } ∧
      (try_move bEx (exState [{ r := 1, c := 1 }, { r := 3, c := 3 }]) 0
        { r := 1, c := 2 }).1.steps 0 =
        (exState [{ r := 1, c := 1 }, { r := 3, c := 3 }]).steps 0 + 1) ∧
    try_move bEx (exState [{ r := 1, c := 1 }, { r := 3, c := 3 }]) 0
        { r := 3, c := 3 } =
      (exState [{ r := 1, c := 1 }, { r := 3, c := 3 }], false) := by
  constructor
  · obtain ⟨h1, h2, h3, _⟩ :=
      (apply_step_validates_and_commits bEx
        (exState [{ r := 1, c := 1 }, { r := 3, c := 3 }]) 0
        { r := 1, c := 2 }).1 (by decide)
    exact ⟨h1, h2, h3⟩
  · exact (apply_step_validates_and_commits bEx
      (exState [{ r := 1, c := 1 }, { r := 3, c := 3 }]) 0
      { r := 3, c := 3 }).2 (by decide)

/-- C9: the freeze gate — a toon whose freeze expiry lies in the future at
the top of its tick performs no state-mutating action at all that tick: the
whole loop body returns the state unchanged (no move, no step-count or
global-counter increment, no shot, no win check), so a frozen toon produces
no move until the clock reaches its stored expiry. -/
theorem frozen_tick_is_noop (b : Board) (fz : Int) (s : RaceState) (t : Nat)
    (tNow : Int) (d : Draws) (hf : tNow < s.frozen_until t) :
    tick b fz s t tNow d = s := by
  simp [tick, hf]

/-- C9 witness: a concrete toon frozen until time 100 ticking at time 0
leaves the state untouched. -/
theorem frozen_tick_is_noop_witness :
    tick bEx 1000 { exState [{ r := 1, c := 1 }] with frozen_until := fun _ => 100 }
        0 0 ⟨true, true, ⟨0, by decide⟩, false, false, false, ⟨0, by decide⟩⟩ =
      { exState [{ r := 1, c := 1 }] with frozen_until := fun _ => 100 } :=
  frozen_tick_is_noop bEx 1000 _ 0 0 _ (by decide)

/-! ## The stay step and the Coyote jump -/

/-- C10: proposing the zero direction ("stay", the fifth outcome of the
uniform pick) always passes validation for a live toon — its own cell is in
bounds, left of the finish boundary, not a wall, and the occupancy scan
skips the toon itself — so a stay tick commits as a successful move: the
toon's step counter and the global step counter both grow by 1 while the
position is unchanged. -/
theorem stay_step_commits (b : Board) (s : RaceState) (t : Nat) (jr : Bool)
    (hin : b.inBounds (s.toonPos t).r (s.toonPos t).c = true)
    (hfin : (s.toonPos t).c < b.finishCol)
    (hwall : b.isWall (s.toonPos t) = false)
    (hocc : ∀ k, k < s.nToons → k ≠ t → s.toonPos k ≠ s.toonPos t) :
    pick_step ⟨4, by decide⟩ = { r := 0, c := 0 } ∧
    (moveSection b s t { r := 0, c := 0 } jr).2 = true ∧
    (moveSection b s t { r := 0, c := 0 } jr).1.toonPos t = s.toonPos t ∧
    (moveSection b s t { r := 0, c := 0 } jr).1.steps t = s.steps t + 1 ∧
    (moveSection b s t { r := 0, c := 0 } jr).1.totalSteps = s.totalSteps + 1 := by
  have hv : validDest b s t (s.toonPos t) = true :=
    (validDest_eq_true_iff b s t _).mpr ⟨hin, hfin, hwall, hocc⟩
  have hmp : movePhase b s t { r := 0, c := 0 } jr = tryCommit b s t (s.toonPos t) := by
    have e1 : ({ r := (s.toonPos t).r + ({ r := 0, c := 0 } : Pos).r,
                 c := (s.toonPos t).c + ({ r := 0, c := 0 } : Pos).c } : Pos) =
        s.toonPos t := by
      simp
    simp only [movePhase, e1]
    rw [blockedB_eq_not_validDest, hv]
    simp
  refine ⟨rfl, ?_, ?_, ?_, ?_⟩
  · rw [moveSection_snd, hmp, tryCommit_snd]
    exact hv
  · rw [moveSection_fst, winCheck_toonPos, hmp, tryCommit_fst_toonPos,
      try_move_of_valid hv]
    simp
  · rw [moveSection_fst, winCheck_steps, hmp, tryCommit_fst_steps,
      try_move_of_valid hv]
    simp
  · rw [moveSection_fst, winCheck_totalSteps, hmp]
    exact tryCommit_totalSteps_of_valid hv

/-- C10 witness: a concrete two-toon state where toon 0 stays put — the
move succeeds, the position is unchanged and both counters increase. -/
theorem stay_step_commits_witness :
    (moveSection bEx (exState [{ r := 1, c := 1 }, { r := 3, c := 3 }]) 0
        { r := 0, c := 0 } false).2 = true ∧
    (moveSection bEx (exState [{ r := 1, c := 1 }, { r := 3, c := 3 }]) 0
        { r := 0, c := 0 } false).1.toonPos 0 = { r := 1, c := 1 } ∧
    (moveSection bEx (exState [{ r := 1, c := 1 }, { r := 3, c := 3 }]) 0
        { r := 0, c := 0 } false).1.totalSteps = 1 := by
  obtain ⟨_, h2, h3, _, h5⟩ :=
    stay_step_commits bEx (exState [{ r := 1, c := 1 }, { r := 3, c := 3 }]) 0
      false (by decide) (by decide) (by decide) (by decide)
  exact ⟨h2, h3, h5⟩

/-- C8: when the Coyote's proposed normal move is blocked (destination
invalid per the shared `validDest` rule) and the jump roll succeeds, the
jump destination is exactly two cells from the current position in the
original direction and is validated by the very same rule; a successful
jump is the toon's single move of the tick: position becomes the two-cell
hop, the step count grows by exactly 1 and the global counter by 1 (the
normal move is not also committed). -/
theorem coyote_jump_two_cells (b : Board) (s : RaceState) (step : Pos)
    (hblocked : validDest b s COYOTE
      { r := (s.toonPos COYOTE).r + step.r,
        c := (s.toonPos COYOTE).c + step.c } = false)
    (hhop : validDest b s COYOTE
      { r := (s.toonPos COYOTE).r + 2 * step.r,
        c := (s.toonPos COYOTE).c + 2 * step.c } = true) :
    (moveSection b s COYOTE step true).2 = true ∧
    (moveSection b s COYOTE step true).1.toonPos COYOTE =
      { r := (s.toonPos COYOTE).r + 2 * step.r,
        c := (s.toonPos COYOTE).c + 2 * step.c } ∧
    (moveSection b s COYOTE step true).1.steps COYOTE = s.steps COYOTE + 1 ∧
    (moveSection b s COYOTE step true).1.totalSteps = s.totalSteps + 1 := by
  have e2 : ({ r := (s.toonPos COYOTE).r + step.r + step.r,
               c := (s.toonPos COYOTE).c + step.c + step.c } : Pos) =
      { r := (s.toonPos COYOTE).r + 2 * step.r,
        c := (s.toonPos COYOTE).c + 2 * step.c } := by
    have hr : (s.toonPos COYOTE).r + step.r + step.r =
        (s.toonPos COYOTE).r + 2 * step.r := by ring
    have hc : (s.toonPos COYOTE).c + step.c + step.c =
        (s.toonPos COYOTE).c + 2 * step.c := by ring
    rw [hr, hc]
  have hhop' : validDest b s COYOTE
      { r := (s.toonPos COYOTE).r + step.r + step.r,
        c := (s.toonPos COYOTE).c + step.c + step.c } = true := by
    rw [e2]; exact hhop
  have hmp : movePhase b s COYOTE step true =
      tryCommit b s COYOTE
        { r := (s.toonPos COYOTE).r + step.r + step.r,
          c := (s.toonPos COYOTE).c + step.c + step.c } := by
    simp only [movePhase]
    rw [blockedB_eq_not_validDest, hblocked]
    simp [hhop']
  refine ⟨?_, ?_, ?_, ?_⟩
  · rw [moveSection_snd, hmp, tryCommit_snd]
    exact hhop'
  · rw [moveSection_fst, winCheck_toonPos, hmp, tryCommit_fst_toonPos,
      try_move_of_valid hhop']
    simp [e2]
  · rw [moveSection_fst, winCheck_steps, hmp, tryCommit_fst_steps,
      try_move_of_valid hhop']
    simp
  · rw [moveSection_fst, winCheck_totalSteps, hmp]
    exact tryCommit_totalSteps_of_valid hhop'

/-- C8 witness: the spec's scenario — the Coyote at `(2,2)` faces a wall at
`(2,3)` with the cell `(2,4)` free; the jump commits, the position is two
cells beyond and the step count is bumped by exactly 1. -/
theorem coyote_jump_two_cells_witness :
    (moveSection bWallEx (exState [{ r := 0, c := 0 }, { r := 2, c := 2 }]) COYOTE
        { r := 0, c := 1 } true).2 = true ∧
    (moveSection bWallEx (exState [{ r := 0, c := 0 }, { r := 2, c := 2 }]) COYOTE
        { r := 0, c := 1 } true).1.toonPos COYOTE = { r := 2, c := 4 } ∧
    (moveSection bWallEx (exState [{ r := 0, c := 0 }, { r := 2, c := 2 }]) COYOTE
        { r := 0, c := 1 } true).1.steps COYOTE = 1 := by
  obtain ⟨h1, h2, h3, _⟩ :=
    coyote_jump_two_cells bWallEx (exState [{ r := 0, c := 0 }, { r := 2, c := 2 }])
      { r := 0, c := 1 } (by decide) (by decide)
  exact ⟨h1, by rw [h2]; decide, by rw [h3]; decide⟩

/-! ## YosemiteSam's shot with no eligible target (C3) -/

lemma foldl_skip_of_fixed {α β : Type} (f : β → α → β) (l : List α) (acc : β)
    (h : ∀ x ∈ l, ∀ b, f b x = b) : l.foldl f acc = acc := by
  induction l generalizing acc with
  | nil => rfl
  | cons a l ih =>
      rw [List.foldl_cons, h a (List.mem_cons_self a l)]
      exact ih acc fun x hx b => h x (List.mem_cons_of_mem _ hx) b

lemma findTarget_none (s : RaceState) (t : Nat) (tNow : Int)
    (h : ∀ k, k < s.nToons → k ≠ t → tNow < s.frozen_until k) :
    findTarget s t tNow = (-1, 1000000000) := by
  unfold findTarget
  apply foldl_skip_of_fixed
  intro k hk acc
  rw [List.mem_range] at hk
  by_cases hkt : k = t
  · simp [hkt]
  · simp [hkt, h k hk hkt]

/-- C3 counterexample: with both other toons frozen, YosemiteSam's trigger
(not on cooldown, successful shoot roll) freezes nobody — but the cooldown
flag is set anyway, refuting the claim that the cooldown is not started
when no eligible target exists. -/
theorem sam_cooldown_starts_without_target_cex :
    (samSection 1000 sC3state YOSEMITESAM 0 true).sam_on_cd = true ∧
    (∀ k, k < 3 → (samSection 1000 sC3state YOSEMITESAM 0 true).frozen_until k =
      sC3state.frozen_until k) := by
  constructor
  · decide
  · decide

/-- C3 amended: when YosemiteSam's shoot trigger fires (not on cooldown,
roll succeeds) but every other toon is currently frozen (or there is no
other toon), no freeze is applied to anyone — but the cooldown IS started:
in the source the `sam_on_cd.store(true)` and the detached timer stand
after, and outside of, the `if (target != -1)` block, so the shooter
cannot fire again until the cooldown elapses. -/
theorem sam_no_target_no_freeze_but_cooldown (fz : Int) (s : RaceState)
    (tNow : Int) (hgo : s.gameOver = false) (hcd : s.sam_on_cd = false)
    (hfrozen : ∀ k, k < s.nToons → k ≠ YOSEMITESAM → tNow < s.frozen_until k) :
    samSection fz s YOSEMITESAM tNow true = { s with sam_on_cd := true } := by
  have ht := findTarget_none s YOSEMITESAM tNow hfrozen
  unfold samSection
  simp [ht, hgo, hcd]

/-- C3 amended claim witness: on the concrete all-others-frozen state the
shot section returns the same state with only the cooldown flag raised. -/
theorem sam_no_target_no_freeze_but_cooldown_witness :
    samSection 1000 sC3state YOSEMITESAM 0 true =
      { sC3state with sam_on_cd := true } :=
  sam_no_target_no_freeze_but_cooldown 1000 sC3state 0 rfl rfl (by decide)

/-! ## Win check placement (C4) -/

/-- C4 counterexample: a critical section can commit a move onto a winning
cell and end with the game-over flag still false: the RoadRunner burst
section (its own lock acquisition, reachable in one `SStep.burst`) from
`(2,17)` commits the extra step onto the flag cell `(2,18)` — a winning
position — but performs no win check, so the flag stays down at the end of
that lock-held section. -/
theorem burst_win_unchecked_cex :
    SStep bEx 1000 (exState [{ r := 2, c := 17 }])
      (burstSection bEx (exState [{ r := 2, c := 17 }]) 0 true true ⟨0, by decide⟩) ∧
    winningPos bEx
      ((burstSection bEx (exState [{ r := 2, c := 17 }]) 0 true true
        ⟨0, by decide⟩).toonPos 0) = true ∧
    (burstSection bEx (exState [{ r := 2, c := 17 }]) 0 true true
      ⟨0, by decide⟩).gameOver = false :=
  ⟨SStep.burst _ 0 true true _ (by decide), by decide, by decide⟩

/-- C4 amended: the win condition is checked under the same lock
acquisition for the normal move and the Coyote jump — at the end of every
move section, a toon standing on a winning cell implies the game-over flag
is set — but the RoadRunner burst commits its extra step in a separate
lock-held section with no win check, so a winning burst leaves the flag
down until a later move section of that toon observes the position. -/
theorem win_checked_after_move_and_jump (b : Board) (s : RaceState) (t : Nat)
    (step : Pos) (jr : Bool)
    (hw : winningPos b ((moveSection b s t step jr).1.toonPos t) = true) :
    (moveSection b s t step jr).1.gameOver = true := by
  rw [moveSection_fst] at hw ⊢
  rw [winCheck_toonPos] at hw
  rw [winCheck_gameOver_iff]
  exact Or.inr hw

/-- C4 amended claim witness: the normal move of toon 0 from `(2,17)` onto
the flag ends its move section with the game-over flag set. -/
theorem win_checked_after_move_and_jump_witness :
    (moveSection bEx (exState [{ r := 2, c := 17 }]) 0 { r := 0, c := 1 }
      false).1.gameOver = true :=
  win_checked_after_move_and_jump bEx (exState [{ r := 2, c := 17 }]) 0
    { r := 0, c := 1 } false (by decide)

/-! ## The bias rule of the step proposal (C6) -/

/-- C6 counterexample: at `(0,18)` on `bEx` (flag `(2,18)`) the direction
to the goal is row-only.  In the 70% branch with the coin picking the
column axis, the claimed rule moves along the unaligned row axis, but the
code falls through to the uniform five-way pick — here drawing "left",
a step the claimed rule never produces at this input. -/
theorem propose_step_bias_cex :
    proposeStep bEx { r := 0, c := 18 } true false ⟨2, by decide⟩ =
      { r := 0, c := -1 } ∧
    specProposeStep bEx { r := 0, c := 18 } true false ⟨2, by decide⟩ =
      { r := 1, c := 0 } ∧
    proposeStep bEx { r := 0, c := 18 } true false ⟨2, by decide⟩ ≠
      specProposeStep bEx { r := 0, c := 18 } true false ⟨2, by decide⟩ :=
  ⟨by decide, by decide, by decide⟩

/-- C6 amended: the implemented bias rule — in the 70% branch, a row-axis
coin hit with the row unaligned moves one cell along the row toward the
goal; in every other 70% case the step moves along the column axis when
that is unaligned; all remaining cases (the 30% branch, both axes aligned,
or a column-axis coin hit with the column already aligned) draw uniformly
from the four cardinal directions and "stay".  The code never falls back
from an aligned column-axis choice to the row axis. -/
theorem propose_step_characterization (b : Board) (cur : Pos)
    (biasRoll axisCoin : Bool) (pick : Fin 5) :
    proposeStep b cur biasRoll axisCoin pick =
      specProposeStepAmended b cur biasRoll axisCoin pick := by
  cases biasRoll <;> cases axisCoin <;>
    simp [proposeStep, specProposeStepAmended]

/-! ## The unused step cap and the missing no-winner report (C2) -/

/-- C2 (code bug): `maxSteps` is parsed and clamped to at least 100 but
never consulted again — the workers' and the supervisor's loop guards
depend only on the game-over and stop flags, so a run whose cumulative
step count has reached the cap with neither flag set simply continues;
and when the run ends without a winner (`winner = -1`, e.g. after an
external abort), `main` prints no terminal report at all, so there is no
explicit "no winner" outcome. -/
theorem step_cap_unenforced_and_no_report (o : Options) (total : Nat)
    (n : Nat) (steps : Nat → Nat)
    (hcap : (clampOptions o).maxSteps ≤ (total : Int)) :
    100 ≤ (clampOptions o).maxSteps ∧
    workerLoopContinues false false = true ∧
    supervisorWaits false false = true ∧
    finalSummary n steps (-1) = [] := by
  refine ⟨le_max_left 100 _, rfl, rfl, ?_⟩
  unfold finalSummary
  rw [if_neg (by decide)]

/-- C2 witness: with the default-like configuration clamped to a 100-step
cap and the cumulative count already at 100, both loops still continue and
the abort path prints nothing. -/
theorem step_cap_unenforced_and_no_report_witness :
    100 ≤ (clampOptions { rows := 18, cols := 36, toons := 3, maxSteps := 100 }).maxSteps ∧
    workerLoopContinues false false = true ∧
    supervisorWaits false false = true ∧
    finalSummary 3 (fun _ => 40) (-1) = [] :=
  step_cap_unenforced_and_no_report
    { rows := 18, cols := 36, toons := 3, maxSteps := 100 } 100 3 (fun _ => 40)
    (by decide)

end ToonsChase
